import Mathlib

/-!
Verification of the Conditional-GAN training notebook
(`notebooks/conditional_gan/Conditional-GAN-training.ipynb`).

The notebook is a linear PyTorch script: configuration dictionaries, a
dataloader, a `Generator` and a `Discriminator` network, and a
`train_model` loop that alternates discriminator and generator gradient
updates, records per-epoch averaged losses, and saves a PNG image grid
per epoch.  We shallowly embed the script here: numeric framework
internals (autodiff gradient values, Adam update arithmetic, the random
number generator) are abstract parameters, while the control flow, the
computation-graph dependency structure (including `detach`), the loss
bookkeeping, the event trace of optimizer steps and filesystem
operations, and the generator network's layer structure are translated
directly from the source.
-/

namespace CGan

/-! ## Computation-graph dependency model

`d_loss.backward()` / `g_loss.backward()` write gradients into exactly
the parameter tensors that the loss value depends on through the
autograd graph; `Tensor.detach()` cuts the graph.  We model the loss
expressions built in each batch iteration of `train_model` symbolically
and compute which parameter family (generator / discriminator) a loss
depends on. -/

/-- The two parameter families of the GAN. -/
inductive PKind where
  | gen
  | disc
deriving DecidableEq, Repr

/-- Symbolic autograd expressions, as built in one batch iteration of
`train_model`: leaf tensors (data batch, noise, labels, the constant
`valid`/`fake` targets), application of the generator or the
discriminator, `.detach()`, the `adv_loss` (BCE-with-logits) call, and
the arithmetic used to combine losses. -/
inductive GraphExpr where
  | leaf : GraphExpr
  | genApp : GraphExpr → GraphExpr
  | discApp : GraphExpr → GraphExpr
  | detach : GraphExpr → GraphExpr
  | bce : GraphExpr → GraphExpr → GraphExpr
  | add : GraphExpr → GraphExpr → GraphExpr
  | half : GraphExpr → GraphExpr
deriving DecidableEq, Repr

/-- Whether a backward pass from expression `e` reaches the parameters
of family `k`: `detach` blocks the traversal, applying a network makes
the result depend on that network's parameters and on whatever its
input depends on. -/
def GraphExpr.dependsOn : GraphExpr → PKind → Bool
  | .leaf, _ => false
  | .genApp e, k => k = PKind.gen || e.dependsOn k
  | .discApp e, k => k = PKind.disc || e.dependsOn k
  | .detach _, _ => false
  | .bce e t, k => e.dependsOn k || t.dependsOn k
  | .add a b, k => a.dependsOn k || b.dependsOn k
  | .half e, k => e.dependsOn k

/-- The discriminator loss graph of one batch iteration:
`gen_x = generator(z, gen_y)`, `validity_fake = discriminator(gen_x.detach(), gen_y)`,
`validity_real = discriminator(x, y)`,
`d_loss = (adv_loss(validity_real, valid) + adv_loss(validity_fake, fake)) / 2`. -/
def dLossGraph : GraphExpr :=
  GraphExpr.half
    (GraphExpr.add
      (GraphExpr.bce (GraphExpr.discApp GraphExpr.leaf) GraphExpr.leaf)
      (GraphExpr.bce
        (GraphExpr.discApp (GraphExpr.detach (GraphExpr.genApp GraphExpr.leaf)))
        GraphExpr.leaf))

/-- The generator loss graph of one batch iteration:
`gen_x = generator(z, gen_y)`, `validity = discriminator(gen_x, gen_y)`,
`g_loss = adv_loss(validity, valid)` — no `detach`, so the graph
traverses the discriminator into the generator. -/
def gLossGraph : GraphExpr :=
  GraphExpr.bce (GraphExpr.discApp (GraphExpr.genApp GraphExpr.leaf)) GraphExpr.leaf

/-! ## Training-loop state machine

Parameter and gradient values are abstract (`GP` for the generator
family, `DP` for the discriminator family, `B` for a data batch); the
numeric content of gradients, Adam updates and loss values is supplied
by a `Framework` record of opaque functions, standing for the PyTorch
collaborator.  The control flow of `train_model` is translated
statement by statement. -/

/-- Mutable training state: the two networks' parameter tensors and
their `.grad` buffers. -/
structure LoopState (GP DP : Type) where
  genP : GP
  discP : DP
  genGrad : GP
  discGrad : DP
deriving Repr

/-- The deep-learning framework collaborator: zero gradients, gradient
values contributed by each backward pass, Adam steps, loss values.
All are opaque functions of the current parameters and the batch. -/
structure Framework (GP DP B : Type) where
  zeroG : GP
  zeroD : DP
  addG : GP → GP → GP
  addD : DP → DP → DP
  dGradG : GP → DP → B → GP
  dGradD : GP → DP → B → DP
  gGradG : GP → DP → B → GP
  gGradD : GP → DP → B → DP
  stepG : GP → GP → GP
  stepD : DP → DP → DP
  dRealLoss : GP → DP → B → ℚ
  dFakeLoss : GP → DP → B → ℚ
  gLossVal : GP → DP → B → ℚ

variable {GP DP B : Type}

/-- Semantics of `loss.backward()`: accumulate the gradient contributions `gvG`/`gvD`
into the `.grad` buffers of exactly the parameter families the loss
graph `e` depends on. -/
def backward (fw : Framework GP DP B) (e : GraphExpr) (gvG : GP) (gvD : DP)
    (st : LoopState GP DP) : LoopState GP DP :=
  { st with
    genGrad := if e.dependsOn PKind.gen then fw.addG st.genGrad gvG else st.genGrad
    discGrad := if e.dependsOn PKind.disc then fw.addD st.discGrad gvD else st.discGrad }

/-- The discriminator phase of one batch iteration
(`optimizer_D.zero_grad()` … `optimizer_D.step()`), together with the
value of `d_loss` it computes. -/
def discPhase (fw : Framework GP DP B) (st : LoopState GP DP) (b : B) :
    LoopState GP DP × ℚ :=
  let st1 := { st with discGrad := fw.zeroD }
  let dLossVal := (fw.dRealLoss st1.genP st1.discP b + fw.dFakeLoss st1.genP st1.discP b) / 2
  let st2 := backward fw dLossGraph (fw.dGradG st1.genP st1.discP b)
      (fw.dGradD st1.genP st1.discP b) st1
  let st3 := { st2 with discP := fw.stepD st2.discP st2.discGrad }
  (st3, dLossVal)

/-- The generator phase of one batch iteration
(`optimizer_G.zero_grad()` … `optimizer_G.step()`), together with the
value of `g_loss` it computes. -/
def genPhase (fw : Framework GP DP B) (st : LoopState GP DP) (b : B) :
    LoopState GP DP × ℚ :=
  let st1 := { st with genGrad := fw.zeroG }
  let gVal := fw.gLossVal st1.genP st1.discP b
  let st2 := backward fw gLossGraph (fw.gGradG st1.genP st1.discP b)
      (fw.gGradD st1.genP st1.discP b) st1
  let st3 := { st2 with genP := fw.stepG st2.genP st2.genGrad }
  (st3, gVal)

/-- One batch iteration of `train_model`: the discriminator phase, then
the generator phase.  Returns the new state and the `(g_loss, d_loss)`
items accumulated into the running sums. -/
def trainBatch (fw : Framework GP DP B) (st : LoopState GP DP) (b : B) :
    LoopState GP DP × ℚ × ℚ :=
  let (stD, dVal) := discPhase fw st b
  let (stG, gVal) := genPhase fw stD b
  (stG, gVal, dVal)

/-! ## Observable events

The run's observable effects: optimizer steps (`optimizer_D.step()`,
`optimizer_G.step()`), filesystem operations performed by
`save_reconstruction` (`os.makedirs`, `save_image`, `plt.imread`), and
the plotting collaborator's display calls. -/

/-- One observable event of a run. -/
inductive Ev where
  | stepD
  | stepG
  | makedirsResults
  | writeImage (path : String)
  | readImage (path : String)
  | plotShow
deriving DecidableEq, Repr

/-- Events that are optimizer gradient updates. -/
def Ev.isStep : Ev → Bool
  | .stepD => true
  | .stepG => true
  | _ => false

/-- Events that are filesystem operations. -/
def Ev.isFs : Ev → Bool
  | .makedirsResults => true
  | .writeImage _ => true
  | .readImage _ => true
  | _ => false

/-! ## `save_reconstruction` -/

/-- The label batch of `save_reconstruction`:
`labels = np.array([num for _ in range(n_row) for num in range(n_row)])`. -/
def reconLabels (n_row : Nat) : List Nat :=
  (List.range n_row).flatMap (fun _ => List.range n_row)

/-- What one call to `save_reconstruction` does: the noise batch `z` and
label batch handed to the generator, and the filesystem events.  `rng`
stands for `np.random.normal`, giving the entry of noise row `i` at
coordinate `j`. -/
structure ReconCall where
  zRows : List (List ℚ)
  labels : List Nat
  events : List Ev
deriving Repr

/-- The function `save_reconstruction(generator, generator_latent_dim, n_row, epoch_n, device)`:
create the `results` directory, sample a `(n_row ** 2, generator_latent_dim)`
noise batch, build the label batch, generate, save the grid to
`results/%d.png % epoch_n`, and read the saved file back. -/
def save_reconstruction (rng : Nat → Nat → ℚ) (generator_latent_dim n_row epoch_n : Nat) :
    ReconCall :=
  { zRows := (List.range (n_row ^ 2)).map
      (fun i => (List.range generator_latent_dim).map (rng i))
    labels := reconLabels n_row
    events := [Ev.makedirsResults,
               Ev.writeImage ("results/" ++ toString epoch_n ++ ".png"),
               Ev.readImage ("results/" ++ toString epoch_n ++ ".png")] }

/-! ## The epoch loop of `train_model` -/

/-- The dataloader collaborator: a fixed number of batches per epoch
(`len(dataloader)`), reshuffled each epoch (`batch e i` is batch `i` of
epoch `e`). -/
structure Dataloader (B : Type) where
  numBatches : Nat
  batch : Nat → Nat → B

/-- The dictionary `model_loss` with its `generator` and `discriminator` entries: the loss
history local to `train_model`. -/
structure ModelLoss where
  generator : List ℚ
  discriminator : List ℚ
deriving DecidableEq, Repr

/-- The inner `for x, y in dataloader:` loop: fold `trainBatch` over the
epoch's batches, threading the state, the running loss sums
(`running_g_loss`, `running_d_loss`) and the event trace. -/
def runBatches (fw : Framework GP DP B) (st : LoopState GP DP)
    (runningG runningD : ℚ) (evs : List Ev) :
    List B → LoopState GP DP × ℚ × ℚ × List Ev
  | [] => (st, runningG, runningD, evs)
  | b :: bs =>
    let (st1, gVal, dVal) := trainBatch fw st b
    runBatches fw st1 (runningG + gVal) (runningD + dVal)
      (evs ++ [Ev.stepD, Ev.stepG]) bs

/-- The per-batch `(g_loss, d_loss)` values along the training
trajectory, as the specification describes them: the sequence of loss
items of each batch iteration, each computed at the state the loop has
reached.  Used to compare the code's running sums against the
specification's "sum of per-batch losses". -/
def specBatchLosses (fw : Framework GP DP B) (st : LoopState GP DP) :
    List B → List (ℚ × ℚ)
  | [] => []
  | b :: bs =>
    let (st1, gVal, dVal) := trainBatch fw st b
    (gVal, dVal) :: specBatchLosses fw st1 bs

/-- The batches one iteration of the dataloader yields at a given
epoch. -/
def epochBatches (dl : Dataloader B) (epoch : Nat) : List B :=
  (List.range dl.numBatches).map (dl.batch epoch)

/-- The body of `for epoch in range(epochs):` in `train_model`: run all
batches, average the running losses over `len(dataloader)`, append to
`model_loss`, and (since `epoch % 1 == 0` always holds) save a
reconstruction grid and plot the current results. -/
def epochStep (fw : Framework GP DP B) (dl : Dataloader B)
    (rng : Nat → Nat → Nat → ℚ) (generator_latent_dim n_classes : Nat)
    (st : LoopState GP DP) (hist : ModelLoss) (epoch : Nat) :
    LoopState GP DP × ModelLoss × List Ev :=
  let bs := epochBatches dl epoch
  let (st1, runningG, runningD, evs) := runBatches fw st 0 0 [] bs
  let epochGLoss := runningG / (dl.numBatches : ℚ)
  let epochDLoss := runningD / (dl.numBatches : ℚ)
  let hist1 : ModelLoss :=
    { generator := hist.generator ++ [epochGLoss]
      discriminator := hist.discriminator ++ [epochDLoss] }
  if epoch % 1 == 0 then
    let rc := save_reconstruction (rng epoch) generator_latent_dim n_classes epoch
    (st1, hist1, evs ++ rc.events ++ [Ev.plotShow])
  else
    (st1, hist1, evs)

/-- The loop `for epoch in range(epochs):` — iterate `epochStep` for the epoch
indices `0, 1, …, epochs-1`, starting from the empty loss history. -/
def runEpochs (fw : Framework GP DP B) (dl : Dataloader B)
    (rng : Nat → Nat → Nat → ℚ) (generator_latent_dim n_classes : Nat)
    (st0 : LoopState GP DP) :
    Nat → LoopState GP DP × ModelLoss × List Ev
  | 0 => (st0, ⟨[], []⟩, [])
  | e + 1 =>
    let (st, hist, evs) := runEpochs fw dl rng generator_latent_dim n_classes st0 e
    let (st1, hist1, evs1) :=
      epochStep fw dl rng generator_latent_dim n_classes st hist e
    (st1, hist1, evs ++ evs1)

/-- The function `train_model(epochs, dataloader, generator, optimizer_G, discriminator,
optimizer_D, adv_loss, generator_latent_dim, n_classes, device)`: run the
epoch loop, then `plot_loss(model_loss)`.  The Python function returns
`None`; its observable outcome is the final parameter state and the event
trace — `model_loss` is a local value that does not escape. -/
def train_model (fw : Framework GP DP B) (dl : Dataloader B)
    (rng : Nat → Nat → Nat → ℚ) (epochs generator_latent_dim n_classes : Nat)
    (st0 : LoopState GP DP) : LoopState GP DP × List Ev :=
  let (st, _hist, evs) := runEpochs fw dl rng generator_latent_dim n_classes st0 epochs
  (st, evs ++ [Ev.plotShow])

/-! ## The `Generator` network

The generator has no batch-norm (every `block` call leaves `normalize`
at its default `False`), so its forward pass is
`Linear → LeakyReLU(0.2)` three times, a final `Linear` to
`prod(img_shape)` features, and `Tanh`, after concatenating the label
embedding with the noise row.  We embed it over ℚ with the pointwise
`Tanh` function abstract (it is the framework's; all we use of it is its
range). -/

/-- Dot product of two rows. -/
def dot (w v : List ℚ) : ℚ :=
  (List.zipWith (· * ·) w v).sum

/-- Layer `nn.Linear`: affine map given a weight matrix (one row per output
feature) and a bias vector. -/
def linear (W : List (List ℚ)) (bias : List ℚ) (v : List ℚ) : List ℚ :=
  List.zipWith (fun row bi => dot row v + bi) W bias

/-- Activation `nn.LeakyReLU(0.2)` pointwise. -/
def leakyRelu (slope x : ℚ) : ℚ :=
  if x < 0 then slope * x else x

/-- The parameter tensors created by `Generator.__init__`:
`label_emb = nn.Embedding(n_classes, n_classes)` (a lookup table of
embedding rows) and the four linear layers of `self.model`. -/
structure GeneratorParams where
  label_emb : List (List ℚ)
  W1 : List (List ℚ)
  b1 : List ℚ
  W2 : List (List ℚ)
  b2 : List ℚ
  W3 : List (List ℚ)
  b3 : List ℚ
  W4 : List (List ℚ)
  b4 : List ℚ
deriving Repr

/-- Predicate stating that `W` is an `rows × cols` matrix. -/
def matDims (W : List (List ℚ)) (rows cols : Nat) : Prop :=
  W.length = rows ∧ ∀ r ∈ W, r.length = cols

/-- The layer shapes `Generator.__init__(n_classes, img_shape, latent_dim)`
creates: `Embedding(n_classes, n_classes)`,
`Linear(latent_dim + n_classes, 256)`, `Linear(256, 512)`,
`Linear(512, 1024)`, `Linear(1024, prod(img_shape))`. -/
def GeneratorWf (p : GeneratorParams) (n_classes : Nat) (img_shape : List Nat)
    (latent_dim : Nat) : Prop :=
  matDims p.label_emb n_classes n_classes ∧
  matDims p.W1 256 (latent_dim + n_classes) ∧ p.b1.length = 256 ∧
  matDims p.W2 512 256 ∧ p.b2.length = 512 ∧
  matDims p.W3 1024 512 ∧ p.b3.length = 1024 ∧
  matDims p.W4 img_shape.prod 1024 ∧ p.b4.length = img_shape.prod

/-- A tensor: a shape and the underlying flat data (row-major), as
`img.view(img.size(0), *self.img_shape)` only reinterprets the flat
data under a new shape. -/
structure Tensor where
  shape : List Nat
  data : List ℚ
deriving Repr

/-- The method `Generator.forward(noise, labels)`:
`gen_input = torch.cat((self.label_emb(labels), noise), -1)`,
`img = self.model(gen_input)`,
`img = img.view(img.size(0), *self.img_shape)`. -/
def Generator.forward (tanh : ℚ → ℚ) (p : GeneratorParams) (img_shape : List Nat)
    (noise : List (List ℚ)) (labels : List Nat) : Tensor :=
  let gen_input := List.zipWith (fun lab z => p.label_emb.getD lab [] ++ z) labels noise
  let img := gen_input.map (fun v =>
    let h1 := (linear p.W1 p.b1 v).map (leakyRelu 0.2)
    let h2 := (linear p.W2 p.b2 h1).map (leakyRelu 0.2)
    let h3 := (linear p.W3 p.b3 h2).map (leakyRelu 0.2)
    (linear p.W4 p.b4 h3).map tanh)
  { shape := img.length :: img_shape, data := img.flatten }

/-! ## The notebook's top-level script

The cells after the global-variable cell, as transformers of the
notebook's variable environment.  Constructed collaborators are
represented by descriptors recording the arguments they were built
from, so the theorem can state which configuration values each
downstream step observed. -/

/-- The record type of `TRAIN_PARAMETERS` (batch_size 128, num_classes 10,
img_shape (1,28,28), epochs 200, learning_rate 0.0002). -/
structure TrainParameters where
  batch_size : Nat
  num_classes : Nat
  img_shape : Nat × Nat × Nat
  epochs : Nat
  learning_rate : ℚ
deriving DecidableEq, Repr

/-- The initial value of `TRAIN_PARAMETERS`. -/
def trainParametersInit : TrainParameters :=
  { batch_size := 128
    num_classes := 10
    img_shape := (1, 28, 28)
    epochs := 200
    learning_rate := 0.0002 }

/-- The record type of `MODEL_HYPERPARAMETERS` (generator_latent_dim 100). -/
structure ModelHyperparameters where
  generator_latent_dim : Nat
deriving DecidableEq, Repr

/-- The initial value of `MODEL_HYPERPARAMETERS`. -/
def modelHyperparametersInit : ModelHyperparameters :=
  { generator_latent_dim := 100 }

/-- The arguments `get_dataloader` was called with. -/
structure DataloaderCall where
  batch_size : Nat
  img_shape : Nat × Nat × Nat
deriving DecidableEq, Repr

/-- The arguments `get_generator_model` was called with. -/
structure GeneratorModelCall where
  num_classes : Nat
  img_shape : Nat × Nat × Nat
  latent_dim : Nat
  lr : ℚ
  device : String
deriving DecidableEq, Repr

/-- The arguments `get_discriminator_model` was called with. -/
structure DiscriminatorModelCall where
  num_classes : Nat
  img_shape : Nat × Nat × Nat
  lr : ℚ
  device : String
deriving DecidableEq, Repr

/-- The two adversarial-loss objects the notebook constructs. -/
inductive LossKind where
  | bceWithLogits
  | mse
deriving DecidableEq, Repr

/-- The arguments `train_model` was called with (besides the model and
optimizer objects). -/
structure TrainModelCall where
  epochs : Nat
  adv_loss : LossKind
  generator_latent_dim : Nat
  n_classes : Nat
  device : String
deriving DecidableEq, Repr

/-- The notebook's variable environment after the global-variable cell:
the two configuration records, `DEVICE`, and the variables the later
cells assign (still unset at this point), plus the record of
`train_model` invocations. -/
structure NotebookEnv where
  TRAIN_PARAMETERS : TrainParameters
  MODEL_HYPERPARAMETERS : ModelHyperparameters
  DEVICE : String
  dataloader : Option DataloaderCall
  generator : Option GeneratorModelCall
  discriminator : Option DiscriminatorModelCall
  adversarial_loss : Option LossKind
  trainModelCalls : List TrainModelCall
deriving DecidableEq, Repr

/-- The global-variable cell: define `TRAIN_PARAMETERS`,
`MODEL_HYPERPARAMETERS` and `DEVICE = 'cuda' if torch.cuda.is_available()
else 'cpu'`. -/
def cellGlobals (cudaAvailable : Bool) : NotebookEnv :=
  { TRAIN_PARAMETERS := trainParametersInit
    MODEL_HYPERPARAMETERS := modelHyperparametersInit
    DEVICE := if cudaAvailable then "cuda" else "cpu"
    dataloader := none
    generator := none
    discriminator := none
    adversarial_loss := none
    trainModelCalls := [] }

/-- The cell `dataloader = get_dataloader(TRAIN_PARAMETERS['batch_size'],
TRAIN_PARAMETERS['img_shape'])`. -/
def cellDataloader (env : NotebookEnv) : NotebookEnv :=
  let call : DataloaderCall :=
    { batch_size := env.TRAIN_PARAMETERS.batch_size
      img_shape := env.TRAIN_PARAMETERS.img_shape }
  { env with dataloader := some call }

/-- The model-construction cell: `generator, optimizer_G =
get_generator_model(...)` and `discriminator, optimizer_D =
get_discriminator_model(...)`, both reading the configuration records. -/
def cellModels (env : NotebookEnv) : NotebookEnv :=
  let genCall : GeneratorModelCall :=
    { num_classes := env.TRAIN_PARAMETERS.num_classes
      img_shape := env.TRAIN_PARAMETERS.img_shape
      latent_dim := env.MODEL_HYPERPARAMETERS.generator_latent_dim
      lr := env.TRAIN_PARAMETERS.learning_rate
      device := env.DEVICE }
  let discCall : DiscriminatorModelCall :=
    { num_classes := env.TRAIN_PARAMETERS.num_classes
      img_shape := env.TRAIN_PARAMETERS.img_shape
      lr := env.TRAIN_PARAMETERS.learning_rate
      device := env.DEVICE }
  { env with generator := some genCall, discriminator := some discCall }

/-- The cell `adversarial_loss = get_adversarial_loss()` (a `BCEWithLogitsLoss`). -/
def cellAdvLoss (env : NotebookEnv) : NotebookEnv :=
  { env with adversarial_loss := some LossKind.bceWithLogits }

/-- A `train_model(TRAIN_PARAMETERS['epochs'], …)` invocation cell:
record the configuration values it reads. -/
def cellTrainModel (env : NotebookEnv) : NotebookEnv :=
  let call : TrainModelCall :=
    { epochs := env.TRAIN_PARAMETERS.epochs
      adv_loss := env.adversarial_loss.getD LossKind.bceWithLogits
      generator_latent_dim := env.MODEL_HYPERPARAMETERS.generator_latent_dim
      n_classes := env.TRAIN_PARAMETERS.num_classes
      device := env.DEVICE }
  { env with trainModelCalls := env.trainModelCalls ++ [call] }

/-- The LSGAN exercise cell: `adversarial_loss = torch.nn.MSELoss()`
followed by the second `train_model(...)` call. -/
def cellLsgan (env : NotebookEnv) : NotebookEnv :=
  cellTrainModel { env with adversarial_loss := some LossKind.mse }

/-- The code cells downstream of the global-variable cell, in execution
order. -/
def notebookCells : List (NotebookEnv → NotebookEnv) :=
  [cellDataloader, cellModels, cellAdvLoss, cellTrainModel, cellLsgan]

/-- The environments the notebook passes through: the environment after
the global cell and after each subsequent cell. -/
def notebookEnvs (cudaAvailable : Bool) : List NotebookEnv :=
  notebookCells.scanl (fun env cell => cell env) (cellGlobals cudaAvailable)

/-! ## Exception propagation

None of the notebook's functions contains a `try`/`except`, a retry or
any recovery path, so a collaborator failure aborts `train_model`.  We
embed the control-flow skeleton of `train_model` with each fallible
collaborator call returning `Except`: the dataloader yielding a batch,
the framework work of one batch iteration (forward/backward/step tensor
operations), and the filesystem work of `save_reconstruction`.  The run
returns the list of collaborator calls it attempted, in order, together
with its outcome. -/

/-- A fallible collaborator call attempted by `train_model`. -/
inductive Op where
  | fetchBatch (epoch idx : Nat)
  | frameworkStep (epoch idx : Nat)
  | saveGrid (epoch : Nat)
deriving DecidableEq, Repr

/-- The collaborators' behaviour: what each call returns when attempted. -/
structure FallibleWorld (ε : Type) where
  fetchBatch : Nat → Nat → Except ε Unit
  frameworkStep : Nat → Nat → Except ε Unit
  saveGrid : Nat → Except ε Unit

variable {ε : Type}

/-- The inner batch loop over the given batch indices: fetch the batch,
do the batch iteration's framework work; the first failure stops the
loop and is re-raised as is. -/
def batchListE (w : FallibleWorld ε) (epoch : Nat) :
    List Nat → List Op × Except ε Unit
  | [] => ([], Except.ok ())
  | i :: is =>
    match w.fetchBatch epoch i with
    | Except.error e => ([Op.fetchBatch epoch i], Except.error e)
    | Except.ok _ =>
      match w.frameworkStep epoch i with
      | Except.error e =>
          ([Op.fetchBatch epoch i, Op.frameworkStep epoch i], Except.error e)
      | Except.ok _ =>
        let (ops, r) := batchListE w epoch is
        (Op.fetchBatch epoch i :: Op.frameworkStep epoch i :: ops, r)

/-- One epoch of the skeleton: the batch loop, then the
`save_reconstruction` filesystem work; any failure is re-raised. -/
def epochE (w : FallibleWorld ε) (numBatches epoch : Nat) :
    List Op × Except ε Unit :=
  let (ops, r) := batchListE w epoch (List.range numBatches)
  match r with
  | Except.error e => (ops, Except.error e)
  | Except.ok _ =>
    match w.saveGrid epoch with
    | Except.error e => (ops ++ [Op.saveGrid epoch], Except.error e)
    | Except.ok _ => (ops ++ [Op.saveGrid epoch], Except.ok ())

/-- The epoch loop of the skeleton over the given epoch indices. -/
def epochListE (w : FallibleWorld ε) (numBatches : Nat) :
    List Nat → List Op × Except ε Unit
  | [] => ([], Except.ok ())
  | e :: es =>
    let (ops, r) := epochE w numBatches e
    match r with
    | Except.error ex => (ops, Except.error ex)
    | Except.ok _ =>
      let (ops2, r2) := epochListE w numBatches es
      (ops ++ ops2, r2)

/-- The control-flow skeleton of `train_model(epochs, …)` with fallible
collaborators: attempt the epochs `0, …, epochs-1` in order; the first
collaborator failure propagates out unhandled. -/
def trainModelE (w : FallibleWorld ε) (epochs numBatches : Nat) :
    List Op × Except ε Unit :=
  epochListE w numBatches (List.range epochs)

/-- What the world answers when a given collaborator call is attempted. -/
def opResult (w : FallibleWorld ε) : Op → Except ε Unit
  | Op.fetchBatch e i => w.fetchBatch e i
  | Op.frameworkStep e i => w.frameworkStep e i
  | Op.saveGrid e => w.saveGrid e

/-- The epoch a collaborator call belongs to. -/
def Op.epochOf : Op → Nat
  | Op.fetchBatch e _ => e
  | Op.frameworkStep e _ => e
  | Op.saveGrid e => e

/-- The complete collaborator-call sequence of one epoch when nothing
fails: fetch and framework work for each batch index in order, then the
filesystem save. -/
def epochOps (numBatches epoch : Nat) : List Op :=
  ((List.range numBatches).flatMap fun i =>
    [Op.fetchBatch epoch i, Op.frameworkStep epoch i]) ++ [Op.saveGrid epoch]

/-- The complete collaborator-call sequence of a whole run when nothing
fails. -/
def runOps (epochs numBatches : Nat) : List Op :=
  (List.range epochs).flatMap (epochOps numBatches)

/-! ## Shared lemmas -/

/-- A `flatMap` with a constant function is a flattened replicate. -/
theorem flatMap_const {α β : Type} (l : List α) (m : List β) :
    (l.flatMap fun _ => m) = (List.replicate l.length m).flatten := by
  induction l with
  | nil => rfl
  | cons a l ih => simp [List.flatMap_cons, List.replicate_succ, ih]

/-- Unfolding lemma for `runBatches` on a cons cell. -/
theorem runBatches_cons (fw : Framework GP DP B) (st : LoopState GP DP)
    (g d : ℚ) (evs : List Ev) (b : B) (bs : List B) :
    runBatches fw st g d evs (b :: bs) =
      runBatches fw (trainBatch fw st b).1 (g + (trainBatch fw st b).2.1)
        (d + (trainBatch fw st b).2.2) (evs ++ [Ev.stepD, Ev.stepG]) bs := by
  rfl

/-- Unfolding lemma for `specBatchLosses` on a cons cell. -/
theorem specBatchLosses_cons (fw : Framework GP DP B) (st : LoopState GP DP)
    (b : B) (bs : List B) :
    specBatchLosses fw st (b :: bs) =
      ((trainBatch fw st b).2.1, (trainBatch fw st b).2.2) ::
        specBatchLosses fw (trainBatch fw st b).1 bs := by
  rfl

/-- The event trace of the inner batch loop: the accumulated events
followed by one `stepD`/`stepG` pair per batch. -/
theorem runBatches_events (fw : Framework GP DP B) (bs : List B) :
    ∀ (st : LoopState GP DP) (g d : ℚ) (evs : List Ev),
      (runBatches fw st g d evs bs).2.2.2 =
        evs ++ (bs.flatMap fun _ => [Ev.stepD, Ev.stepG]) := by
  induction bs with
  | nil => intro st g d evs; simp [runBatches]
  | cons b bs ih =>
    intro st g d evs
    rw [runBatches_cons, ih]
    simp

/-- The running sums of the inner batch loop equal the accumulators plus
the sums of the per-batch loss items along the trajectory. -/
theorem runBatches_sums (fw : Framework GP DP B) (bs : List B) :
    ∀ (st : LoopState GP DP) (g d : ℚ) (evs : List Ev),
      (runBatches fw st g d evs bs).2.1 =
        g + ((specBatchLosses fw st bs).map Prod.fst).sum ∧
      (runBatches fw st g d evs bs).2.2.1 =
        d + ((specBatchLosses fw st bs).map Prod.snd).sum := by
  induction bs with
  | nil => intro st g d evs; simp [runBatches, specBatchLosses]
  | cons b bs ih =>
    intro st g d evs
    rw [runBatches_cons, specBatchLosses_cons]
    obtain ⟨ih1, ih2⟩ := ih (trainBatch fw st b).1 (g + (trainBatch fw st b).2.1)
      (d + (trainBatch fw st b).2.2) (evs ++ [Ev.stepD, Ev.stepG])
    constructor
    · rw [ih1]; simp [add_assoc]
    · rw [ih2]; simp [add_assoc]

/-- The final state of the inner batch loop does not depend on the loss
or event accumulators. -/
theorem runBatches_state (fw : Framework GP DP B) (bs : List B) :
    ∀ (st : LoopState GP DP) (g g' d d' : ℚ) (evs evs' : List Ev),
      (runBatches fw st g d evs bs).1 = (runBatches fw st g' d' evs' bs).1 := by
  induction bs with
  | nil => intro st g g' d d' evs evs'; rfl
  | cons b bs ih =>
    intro st g g' d d' evs evs'
    rw [runBatches_cons, runBatches_cons]
    exact ih _ _ _ _ _ _ _

/-- The event trace of one epoch: the batch loop's optimizer steps, then
the filesystem events of `save_reconstruction`, then the plot display. -/
theorem epochStep_events (fw : Framework GP DP B) (dl : Dataloader B)
    (rng : Nat → Nat → Nat → ℚ) (ld nc : Nat) (st : LoopState GP DP)
    (hist : ModelLoss) (e : Nat) :
    (epochStep fw dl rng ld nc st hist e).2.2 =
      ((epochBatches dl e).flatMap fun _ => [Ev.stepD, Ev.stepG]) ++
        [Ev.makedirsResults,
         Ev.writeImage ("results/" ++ toString e ++ ".png"),
         Ev.readImage ("results/" ++ toString e ++ ".png"),
         Ev.plotShow] := by
  simp [epochStep, Nat.mod_one, save_reconstruction, runBatches_events]

/-- The loss history update of one epoch: append the two averaged
running losses. -/
theorem epochStep_hist (fw : Framework GP DP B) (dl : Dataloader B)
    (rng : Nat → Nat → Nat → ℚ) (ld nc : Nat) (st : LoopState GP DP)
    (hist : ModelLoss) (e : Nat) :
    (epochStep fw dl rng ld nc st hist e).2.1 =
      { generator := hist.generator ++
          [(runBatches fw st 0 0 [] (epochBatches dl e)).2.1 / (dl.numBatches : ℚ)]
        discriminator := hist.discriminator ++
          [(runBatches fw st 0 0 [] (epochBatches dl e)).2.2.1 / (dl.numBatches : ℚ)] } := by
  simp [epochStep, Nat.mod_one]

/-- Unfolding lemma for `runEpochs` at a successor epoch count. -/
theorem runEpochs_succ (fw : Framework GP DP B) (dl : Dataloader B)
    (rng : Nat → Nat → Nat → ℚ) (ld nc : Nat) (st0 : LoopState GP DP) (e : Nat) :
    runEpochs fw dl rng ld nc st0 (e + 1) =
      ((epochStep fw dl rng ld nc (runEpochs fw dl rng ld nc st0 e).1
          (runEpochs fw dl rng ld nc st0 e).2.1 e).1,
       (epochStep fw dl rng ld nc (runEpochs fw dl rng ld nc st0 e).1
          (runEpochs fw dl rng ld nc st0 e).2.1 e).2.1,
       (runEpochs fw dl rng ld nc st0 e).2.2 ++
         (epochStep fw dl rng ld nc (runEpochs fw dl rng ld nc st0 e).1
            (runEpochs fw dl rng ld nc st0 e).2.1 e).2.2) := by
  rfl

/-- The event trace of a whole run, epoch by epoch. -/
theorem runEpochs_events (fw : Framework GP DP B) (dl : Dataloader B)
    (rng : Nat → Nat → Nat → ℚ) (ld nc : Nat) (st0 : LoopState GP DP) :
    ∀ E, (runEpochs fw dl rng ld nc st0 E).2.2 =
      (List.range E).flatMap (fun e =>
        ((epochBatches dl e).flatMap fun _ => [Ev.stepD, Ev.stepG]) ++
          [Ev.makedirsResults,
           Ev.writeImage ("results/" ++ toString e ++ ".png"),
           Ev.readImage ("results/" ++ toString e ++ ".png"),
           Ev.plotShow]) := by
  intro E
  induction E with
  | zero => rfl
  | succ E ih =>
    rw [runEpochs_succ, List.range_succ, List.flatMap_append]
    simp [ih, epochStep_events]

/-- The event trace `train_model` produces: the epoch loop's trace
followed by the final `plot_loss` display. -/
theorem train_model_events (fw : Framework GP DP B) (dl : Dataloader B)
    (rng : Nat → Nat → Nat → ℚ) (E ld nc : Nat) (st0 : LoopState GP DP) :
    (train_model fw dl rng E ld nc st0).2 =
      (runEpochs fw dl rng ld nc st0 E).2.2 ++ [Ev.plotShow] := by
  rfl

/-- A pure optimizer-step trace contains no filesystem event. -/
theorem steps_filter_fs (bs : List B) :
    ((bs.flatMap fun _ => [Ev.stepD, Ev.stepG]).filter Ev.isFs) = [] := by
  induction bs with
  | nil => rfl
  | cons b bs ih => simp [List.flatMap_cons, List.filter_append, ih, Ev.isFs, List.filter]

/-- A pure optimizer-step trace is kept whole by the step filter. -/
theorem steps_filter_step (bs : List B) :
    ((bs.flatMap fun _ => [Ev.stepD, Ev.stepG]).filter Ev.isStep) =
      (bs.flatMap fun _ => [Ev.stepD, Ev.stepG]) := by
  induction bs with
  | nil => rfl
  | cons b bs ih =>
    simp [List.flatMap_cons, List.filter_append, ih, Ev.isStep, List.filter, flatMap_const,
      List.replicate_succ]

/-- Each epoch yields `len(dataloader)` batches. -/
theorem epochBatches_length (dl : Dataloader B) (e : Nat) :
    (epochBatches dl e).length = dl.numBatches := by
  simp [epochBatches]

/-- A constant-chunk `flatMap` over `range E` is a flattened replicate. -/
theorem flatMap_range_flatten_replicate {α : Type} (E n : Nat) (x : List α) :
    ((List.range E).flatMap fun _ => (List.replicate n x).flatten) =
      (List.replicate (E * n) x).flatten := by
  induction E with
  | zero => simp
  | succ E ih =>
    rw [List.range_succ, List.flatMap_append, ih, Nat.succ_mul,
      List.replicate_add, List.flatten_append]
    simp

/-! ## Claims -/

/-- C1: in every batch iteration of `train_model`, the discriminator
phase (`optimizer_D.zero_grad()` … `optimizer_D.step()`) leaves the
generator's parameters and even its gradient buffer unchanged — its
fake-sample loss is computed on `gen_x.detach()`, so `d_loss` does not
depend on the generator parameters; and the generator phase leaves the
discriminator's parameters unchanged even though the `g_loss` graph
traverses the discriminator, because only `optimizer_G.step()` runs.
The batch iteration is exactly the discriminator phase followed by the
generator phase. -/
theorem claim_C1 (fw : Framework GP DP B) (st : LoopState GP DP) (b : B) :
    (discPhase fw st b).1.genP = st.genP ∧
    (discPhase fw st b).1.genGrad = st.genGrad ∧
    dLossGraph.dependsOn PKind.gen = false ∧
    gLossGraph.dependsOn PKind.disc = true ∧
    (genPhase fw st b).1.discP = st.discP ∧
    (trainBatch fw st b).1 = (genPhase fw (discPhase fw st b).1 b).1 :=
  ⟨rfl, rfl, rfl, rfl, rfl, rfl⟩

/-- C2: the optimizer-step trace of a whole `train_model` run is exactly
one discriminator step followed by one generator step per batch, for
`epochs * len(dataloader)` batches — the two kinds of updates strictly
alternate, starting with the discriminator. -/
theorem claim_C2 (fw : Framework GP DP B) (dl : Dataloader B)
    (rng : Nat → Nat → Nat → ℚ) (E ld nc : Nat) (st0 : LoopState GP DP) :
    ((train_model fw dl rng E ld nc st0).2.filter Ev.isStep) =
      (List.replicate (E * dl.numBatches) [Ev.stepD, Ev.stepG]).flatten := by
  rw [train_model_events, List.filter_append, runEpochs_events, List.filter_flatMap]
  have hchunk : ∀ e : Nat,
      ((((epochBatches dl e).flatMap fun _ => [Ev.stepD, Ev.stepG]) ++
          [Ev.makedirsResults,
           Ev.writeImage ("results/" ++ toString e ++ ".png"),
           Ev.readImage ("results/" ++ toString e ++ ".png"),
           Ev.plotShow]).filter Ev.isStep) =
        (List.replicate dl.numBatches [Ev.stepD, Ev.stepG]).flatten := by
    intro e
    rw [List.filter_append, steps_filter_step, flatMap_const, epochBatches_length]
    simp [List.filter, Ev.isStep]
  calc ((List.range E).flatMap fun e =>
          ((((epochBatches dl e).flatMap fun _ => [Ev.stepD, Ev.stepG]) ++
            [Ev.makedirsResults,
             Ev.writeImage ("results/" ++ toString e ++ ".png"),
             Ev.readImage ("results/" ++ toString e ++ ".png"),
             Ev.plotShow]).filter Ev.isStep)) ++ [Ev.plotShow].filter Ev.isStep
      = ((List.range E).flatMap fun _ =>
          (List.replicate dl.numBatches [Ev.stepD, Ev.stepG]).flatten) := by
        simp only [hchunk]
        simp [List.filter, Ev.isStep]
    _ = (List.replicate (E * dl.numBatches) [Ev.stepD, Ev.stepG]).flatten := by
        rw [flatMap_range_flatten_replicate]

/-- The loss history after `e` completed epochs of the run. -/
def lossHistory (fw : Framework GP DP B) (dl : Dataloader B)
    (rng : Nat → Nat → Nat → ℚ) (ld nc : Nat) (st0 : LoopState GP DP)
    (e : Nat) : ModelLoss :=
  (runEpochs fw dl rng ld nc st0 e).2.1

/-- After `e` completed epochs each loss list holds exactly `e` values. -/
theorem lossHistory_length (fw : Framework GP DP B) (dl : Dataloader B)
    (rng : Nat → Nat → Nat → ℚ) (ld nc : Nat) (st0 : LoopState GP DP) :
    ∀ e, (lossHistory fw dl rng ld nc st0 e).generator.length = e ∧
      (lossHistory fw dl rng ld nc st0 e).discriminator.length = e := by
  intro e
  induction e with
  | zero => exact ⟨rfl, rfl⟩
  | succ e ih =>
    rw [lossHistory, runEpochs_succ, epochStep_hist]
    simp only [List.length_append, List.length_cons, List.length_nil]
    exact ⟨by rw [lossHistory] at ih; rw [ih.1], by rw [lossHistory] at ih; rw [ih.2]⟩

/-- C3: the loss history of `train_model` is append-only and records one
generator-loss and one discriminator-loss value per epoch: after `e`
epochs each list holds exactly `e` values, each epoch appends exactly
one value to each list leaving the earlier values untouched, and the
history is local — `train_model`'s result is just the final parameter
state and the event trace, with the history dropped. -/
theorem claim_C3 (fw : Framework GP DP B) (dl : Dataloader B)
    (rng : Nat → Nat → Nat → ℚ) (E ld nc : Nat) (st0 : LoopState GP DP) (e : Nat) :
    (lossHistory fw dl rng ld nc st0 e).generator.length = e ∧
    (lossHistory fw dl rng ld nc st0 e).discriminator.length = e ∧
    (∃ g d, lossHistory fw dl rng ld nc st0 (e + 1) =
      { generator := (lossHistory fw dl rng ld nc st0 e).generator ++ [g]
        discriminator := (lossHistory fw dl rng ld nc st0 e).discriminator ++ [d] }) ∧
    train_model fw dl rng E ld nc st0 =
      ((runEpochs fw dl rng ld nc st0 E).1,
       (runEpochs fw dl rng ld nc st0 E).2.2 ++ [Ev.plotShow]) := by
  refine ⟨(lossHistory_length fw dl rng ld nc st0 e).1,
    (lossHistory_length fw dl rng ld nc st0 e).2, ?_, rfl⟩
  exact ⟨(runBatches fw (runEpochs fw dl rng ld nc st0 e).1 0 0 []
      (epochBatches dl e)).2.1 / (dl.numBatches : ℚ),
    (runBatches fw (runEpochs fw dl rng ld nc st0 e).1 0 0 []
      (epochBatches dl e)).2.2.1 / (dl.numBatches : ℚ),
    by rw [lossHistory, runEpochs_succ, epochStep_hist]; rfl⟩

/-- C4: over a run of `epochs` epochs, the filesystem trace of
`train_model` is, for each epoch index `e` from `0` to `epochs-1` in
order: create the `results` directory (idempotently), write exactly one
image grid `results/e.png` named by the epoch index, and read it back —
in particular exactly one PNG per epoch, with the directory created
before the write. -/
theorem claim_C4 (fw : Framework GP DP B) (dl : Dataloader B)
    (rng : Nat → Nat → Nat → ℚ) (E ld nc : Nat) (st0 : LoopState GP DP) :
    ((train_model fw dl rng E ld nc st0).2.filter Ev.isFs) =
      ((List.range E).flatMap fun e =>
        [Ev.makedirsResults,
         Ev.writeImage ("results/" ++ toString e ++ ".png"),
         Ev.readImage ("results/" ++ toString e ++ ".png")]) := by
  rw [train_model_events, List.filter_append, runEpochs_events, List.filter_flatMap]
  have hchunk : ∀ e : Nat,
      ((((epochBatches dl e).flatMap fun _ => [Ev.stepD, Ev.stepG]) ++
          [Ev.makedirsResults,
           Ev.writeImage ("results/" ++ toString e ++ ".png"),
           Ev.readImage ("results/" ++ toString e ++ ".png"),
           Ev.plotShow]).filter Ev.isFs) =
        [Ev.makedirsResults,
         Ev.writeImage ("results/" ++ toString e ++ ".png"),
         Ev.readImage ("results/" ++ toString e ++ ".png")] := by
    intro e
    rw [List.filter_append, steps_filter_fs]
    simp [List.filter, Ev.isFs]
  simp only [hchunk]
  simp [List.filter, Ev.isFs]

/-- C9: each epoch of `train_model` records as its generator loss the
sum of the per-batch generator losses along the trajectory divided by
`len(dataloader)`, and as its discriminator loss the sum of the
per-batch `(real-sample loss + fake-sample loss) / 2` values divided by
`len(dataloader)`. -/
theorem claim_C9 (fw : Framework GP DP B) (dl : Dataloader B)
    (rng : Nat → Nat → Nat → ℚ) (ld nc : Nat) (st0 : LoopState GP DP) (e : Nat) :
    lossHistory fw dl rng ld nc st0 (e + 1) =
      { generator := (lossHistory fw dl rng ld nc st0 e).generator ++
          [((specBatchLosses fw (runEpochs fw dl rng ld nc st0 e).1
              (epochBatches dl e)).map Prod.fst).sum / (dl.numBatches : ℚ)]
        discriminator := (lossHistory fw dl rng ld nc st0 e).discriminator ++
          [((specBatchLosses fw (runEpochs fw dl rng ld nc st0 e).1
              (epochBatches dl e)).map Prod.snd).sum / (dl.numBatches : ℚ)] } ∧
    ∀ (st : LoopState GP DP) (b : B),
      (trainBatch fw st b).2.2 =
        (fw.dRealLoss st.genP st.discP b + fw.dFakeLoss st.genP st.discP b) / 2 := by
  constructor
  · rw [lossHistory, runEpochs_succ, epochStep_hist]
    obtain ⟨h1, h2⟩ := runBatches_sums fw (epochBatches dl e)
      (runEpochs fw dl rng ld nc st0 e).1 0 0 []
    rw [h1, h2, lossHistory]
    simp
  · intro st b
    rfl

/-- Unfolding of the batch loop when the fetch of the head index fails. -/
theorem batchListE_cons_fetch_err (w : FallibleWorld ε) (epoch i : Nat)
    (is : List Nat) (e : ε) (hf : w.fetchBatch epoch i = Except.error e) :
    batchListE w epoch (i :: is) = ([Op.fetchBatch epoch i], Except.error e) := by
  simp only [batchListE, hf]

/-- Unfolding of the batch loop when the fetch succeeds but the
framework work of the head index fails. -/
theorem batchListE_cons_fw_err (w : FallibleWorld ε) (epoch i : Nat)
    (is : List Nat) (e : ε) (hf : w.fetchBatch epoch i = Except.ok ())
    (hs : w.frameworkStep epoch i = Except.error e) :
    batchListE w epoch (i :: is) =
      ([Op.fetchBatch epoch i, Op.frameworkStep epoch i], Except.error e) := by
  simp only [batchListE, hf, hs]

/-- Unfolding of the batch loop when the head index's calls succeed. -/
theorem batchListE_cons_ok (w : FallibleWorld ε) (epoch i : Nat)
    (is : List Nat) (hf : w.fetchBatch epoch i = Except.ok ())
    (hs : w.frameworkStep epoch i = Except.ok ()) :
    batchListE w epoch (i :: is) =
      (Op.fetchBatch epoch i :: Op.frameworkStep epoch i :: (batchListE w epoch is).1,
       (batchListE w epoch is).2) := by
  simp only [batchListE, hf, hs]

/-- The batch loop attempts a subsequence of the epoch's full
fetch/framework call sequence, in order. -/
theorem batchListE_sublist (w : FallibleWorld ε) (epoch : Nat) :
    ∀ is : List Nat, (batchListE w epoch is).1.Sublist
      (is.flatMap fun i => [Op.fetchBatch epoch i, Op.frameworkStep epoch i]) := by
  intro is
  induction is with
  | nil => exact List.nil_sublist _
  | cons i is ih =>
    cases hf : w.fetchBatch epoch i with
    | error e =>
      rw [batchListE_cons_fetch_err w epoch i is e hf]
      exact (List.nil_sublist _).cons₂ _
    | ok u =>
      cases u
      cases hs : w.frameworkStep epoch i with
      | error e =>
        rw [batchListE_cons_fw_err w epoch i is e hf hs]
        exact ((List.nil_sublist _).cons₂ _).cons₂ _
      | ok v =>
        cases v
        rw [batchListE_cons_ok w epoch i is hf hs]
        exact (ih.cons₂ _).cons₂ _

/-- If the batch loop succeeds, it attempted exactly the full call
sequence of the epoch and every attempted call succeeded. -/
theorem batchListE_ok_spec (w : FallibleWorld ε) (epoch : Nat) :
    ∀ is : List Nat, (batchListE w epoch is).2 = Except.ok () →
      (batchListE w epoch is).1 =
        (is.flatMap fun i => [Op.fetchBatch epoch i, Op.frameworkStep epoch i]) ∧
      ∀ o ∈ (batchListE w epoch is).1, opResult w o = Except.ok () := by
  intro is
  induction is with
  | nil => intro _; exact ⟨rfl, by intro o ho; exact absurd ho (List.not_mem_nil o)⟩
  | cons i is ih =>
    intro hr
    cases hf : w.fetchBatch epoch i with
    | error e =>
      rw [batchListE_cons_fetch_err w epoch i is e hf] at hr
      exact absurd hr (by simp)
    | ok u =>
      cases u
      cases hs : w.frameworkStep epoch i with
      | error e =>
        rw [batchListE_cons_fw_err w epoch i is e hf hs] at hr
        exact absurd hr (by simp)
      | ok v =>
        cases v
        rw [batchListE_cons_ok w epoch i is hf hs] at hr ⊢
        obtain ⟨htr, hall⟩ := ih hr
        refine ⟨by rw [htr]; rfl, ?_⟩
        intro o ho
        rcases ho with _ | ⟨_, ho⟩
        · exact (show opResult w (Op.fetchBatch epoch i) = _ from hf)
        · rcases ho with _ | ⟨_, ho⟩
          · exact (show opResult w (Op.frameworkStep epoch i) = _ from hs)
          · exact hall o ho

/-- If the batch loop fails, the failing call is the last one attempted,
its error is returned as is, and every earlier attempted call
succeeded. -/
theorem batchListE_err_spec (w : FallibleWorld ε) (epoch : Nat) :
    ∀ (is : List Nat) (ex : ε), (batchListE w epoch is).2 = Except.error ex →
      ∃ ops0 op, (batchListE w epoch is).1 = ops0 ++ [op] ∧
        opResult w op = Except.error ex ∧
        ∀ o ∈ ops0, opResult w o = Except.ok () := by
  intro is
  induction is with
  | nil => intro ex hr; exact absurd hr (by simp [batchListE])
  | cons i is ih =>
    intro ex hr
    cases hf : w.fetchBatch epoch i with
    | error e =>
      rw [batchListE_cons_fetch_err w epoch i is e hf] at hr ⊢
      obtain rfl : e = ex := by simpa using hr
      exact ⟨[], Op.fetchBatch epoch i, rfl,
        (show opResult w (Op.fetchBatch epoch i) = _ from hf),
        by intro o ho; exact absurd ho (List.not_mem_nil o)⟩
    | ok u =>
      cases u
      cases hs : w.frameworkStep epoch i with
      | error e =>
        rw [batchListE_cons_fw_err w epoch i is e hf hs] at hr ⊢
        obtain rfl : e = ex := by simpa using hr
        refine ⟨[Op.fetchBatch epoch i], Op.frameworkStep epoch i, rfl,
          (show opResult w (Op.frameworkStep epoch i) = _ from hs), ?_⟩
        intro o ho
        rcases ho with _ | ⟨_, ho⟩
        · exact (show opResult w (Op.fetchBatch epoch i) = _ from hf)
        · exact absurd ho (List.not_mem_nil o)
      | ok v =>
        cases v
        rw [batchListE_cons_ok w epoch i is hf hs] at hr ⊢
        obtain ⟨ops0, op, htr, hop, hall⟩ := ih ex hr
        refine ⟨Op.fetchBatch epoch i :: Op.frameworkStep epoch i :: ops0, op,
          by rw [htr]; rfl, hop, ?_⟩
        intro o ho
        rcases ho with _ | ⟨_, ho⟩
        · exact (show opResult w (Op.fetchBatch epoch i) = _ from hf)
        · rcases ho with _ | ⟨_, ho⟩
          · exact (show opResult w (Op.frameworkStep epoch i) = _ from hs)
          · exact hall o ho

/-- Unfolding of one epoch when its batch loop fails. -/
theorem epochE_eq_err (w : FallibleWorld ε) (n epoch : Nat) (e : ε)
    (h : (batchListE w epoch (List.range n)).2 = Except.error e) :
    epochE w n epoch = ((batchListE w epoch (List.range n)).1, Except.error e) := by
  rcases hbl : batchListE w epoch (List.range n) with ⟨bops, br⟩
  rw [hbl] at h
  cases br with
  | error e2 =>
    obtain rfl : e2 = e := by simpa using h
    simp only [epochE, hbl]
  | ok u => simp at h

/-- Unfolding of one epoch when its batch loop succeeds: the save is
attempted and its result is the epoch's outcome. -/
theorem epochE_eq_save (w : FallibleWorld ε) (n epoch : Nat)
    (h : (batchListE w epoch (List.range n)).2 = Except.ok ()) :
    epochE w n epoch =
      ((batchListE w epoch (List.range n)).1 ++ [Op.saveGrid epoch],
       w.saveGrid epoch) := by
  rcases hbl : batchListE w epoch (List.range n) with ⟨bops, br⟩
  rw [hbl] at h
  cases br with
  | error e => simp at h
  | ok u =>
    cases u
    cases hs : w.saveGrid epoch with
    | error e => simp only [epochE, hbl, hs]
    | ok v =>
      cases v
      simp only [epochE, hbl, hs]

/-- Unfolding of the epoch loop when its head epoch fails. -/
theorem epochListE_cons_err (w : FallibleWorld ε) (n e : Nat) (es : List Nat)
    (ex0 : ε) (h : (epochE w n e).2 = Except.error ex0) :
    epochListE w n (e :: es) = ((epochE w n e).1, Except.error ex0) := by
  rcases hE : epochE w n e with ⟨eops, er⟩
  rw [hE] at h
  cases er with
  | error e2 =>
    obtain rfl : e2 = ex0 := by simpa using h
    simp only [epochListE, hE]
  | ok u => simp at h

/-- Unfolding of the epoch loop when its head epoch succeeds. -/
theorem epochListE_cons_ok (w : FallibleWorld ε) (n e : Nat) (es : List Nat)
    (h : (epochE w n e).2 = Except.ok ()) :
    epochListE w n (e :: es) =
      ((epochE w n e).1 ++ (epochListE w n es).1, (epochListE w n es).2) := by
  rcases hE : epochE w n e with ⟨eops, er⟩
  rw [hE] at h
  cases er with
  | error e2 => simp at h
  | ok u =>
    cases u
    rcases hR : epochListE w n es with ⟨rops, rr⟩
    simp only [epochListE, hE, hR]

/-- One epoch attempts a subsequence of its full call sequence, and on
success or a save failure ends with the `saveGrid` attempt. -/
theorem epochE_spec (w : FallibleWorld ε) (n epoch : Nat) :
    ((epochE w n epoch).2 = Except.ok () →
      (epochE w n epoch).1 = epochOps n epoch ∧
      ∀ o ∈ (epochE w n epoch).1, opResult w o = Except.ok ()) ∧
    (∀ ex, (epochE w n epoch).2 = Except.error ex →
      ∃ ops0 op, (epochE w n epoch).1 = ops0 ++ [op] ∧
        opResult w op = Except.error ex ∧
        ∀ o ∈ ops0, opResult w o = Except.ok ()) ∧
    (epochE w n epoch).1.Sublist (epochOps n epoch) := by
  cases hr : (batchListE w epoch (List.range n)).2 with
  | error e =>
    rw [epochE_eq_err w n epoch e hr]
    refine ⟨fun h => absurd h (by simp), ?_, ?_⟩
    · intro ex hex
      obtain rfl : e = ex := by simpa using hex
      exact batchListE_err_spec w epoch (List.range n) e hr
    · exact (batchListE_sublist w epoch (List.range n)).trans
        (List.sublist_append_left _ _)
  | ok u =>
    cases u
    obtain ⟨htr, hall⟩ := batchListE_ok_spec w epoch (List.range n) hr
    rw [epochE_eq_save w n epoch hr]
    cases hs : w.saveGrid epoch with
    | error e =>
      refine ⟨fun h => absurd h (by simp), ?_, ?_⟩
      · intro ex hex
        obtain rfl : e = ex := by simpa using hex
        exact ⟨(batchListE w epoch (List.range n)).1, Op.saveGrid epoch, rfl,
          (show opResult w (Op.saveGrid epoch) = _ from hs), hall⟩
      · rw [htr]; exact List.Sublist.refl _
    | ok v =>
      cases v
      refine ⟨?_, fun ex hex => absurd hex (by simp), by rw [htr]; exact List.Sublist.refl _⟩
      intro _
      refine ⟨by rw [htr]; rfl, ?_⟩
      intro o ho
      rcases List.mem_append.mp ho with ho | ho
      · exact hall o ho
      · rw [List.mem_singleton.mp ho]
        exact (show opResult w (Op.saveGrid epoch) = _ from hs)

/-- The epoch loop attempts a subsequence of the full run's call
sequence; on success it attempted all of it and every call succeeded;
on failure the failing call is the last one attempted, its error is the
loop's outcome, and every earlier attempted call succeeded. -/
theorem epochListE_spec (w : FallibleWorld ε) (n : Nat) :
    ∀ es : List Nat,
      ((epochListE w n es).2 = Except.ok () →
        (epochListE w n es).1 = es.flatMap (epochOps n) ∧
        ∀ o ∈ (epochListE w n es).1, opResult w o = Except.ok ()) ∧
      (∀ ex, (epochListE w n es).2 = Except.error ex →
        ∃ ops0 op, (epochListE w n es).1 = ops0 ++ [op] ∧
          opResult w op = Except.error ex ∧
          ∀ o ∈ ops0, opResult w o = Except.ok ()) ∧
      (epochListE w n es).1.Sublist (es.flatMap (epochOps n)) := by
  intro es
  induction es with
  | nil =>
    refine ⟨fun _ => ⟨rfl, ?_⟩, fun ex hex => absurd hex (by simp [epochListE]), ?_⟩
    · intro o ho; exact absurd ho (List.not_mem_nil o)
    · exact List.nil_sublist _
  | cons e es ih =>
    cases hr : (epochE w n e).2 with
    | error ex0 =>
      rw [epochListE_cons_err w n e es ex0 hr]
      refine ⟨fun h => absurd h (by simp), ?_, ?_⟩
      · intro ex hex
        obtain rfl : ex0 = ex := by simpa using hex
        exact (epochE_spec w n e).2.1 ex0 hr
      · exact (epochE_spec w n e).2.2.trans (List.sublist_append_left _ _)
    | ok u =>
      cases u
      obtain ⟨htr, hall⟩ := (epochE_spec w n e).1 hr
      rw [epochListE_cons_ok w n e es hr]
      refine ⟨?_, ?_, ?_⟩
      · intro hok
        obtain ⟨htr2, hall2⟩ := ih.1 hok
        refine ⟨by rw [htr, htr2]; rfl, ?_⟩
        intro o ho
        rcases List.mem_append.mp ho with ho | ho
        · exact hall o ho
        · exact hall2 o ho
      · intro ex hex
        obtain ⟨ops0, op, htr2, hop, hall2⟩ := ih.2.1 ex hex
        refine ⟨(epochE w n e).1 ++ ops0, op, by rw [htr2, List.append_assoc], hop, ?_⟩
        intro o ho
        rcases List.mem_append.mp ho with ho | ho
        · exact hall o ho
        · exact hall2 o ho
      · exact List.Sublist.append (htr ▸ List.Sublist.refl _) ih.2.2

/-- The fetch/framework call sequence of an epoch never repeats a
call. -/
theorem batchOps_nodup (epoch n : Nat) :
    ((List.range n).flatMap fun i =>
      [Op.fetchBatch epoch i, Op.frameworkStep epoch i]).Nodup := by
  rw [List.nodup_flatMap]
  constructor
  · intro i _
    simp
  · refine (List.pairwise_lt_range n).imp ?_
    intro a b hab
    intro o ho ho2
    simp only [List.mem_cons, List.not_mem_nil, or_false] at ho ho2
    rcases ho with rfl | rfl <;> rcases ho2 with h | h <;>
      simp only [Op.fetchBatch.injEq, Op.frameworkStep.injEq, reduceCtorEq] at h <;>
      omega

/-- Every call in an epoch's full sequence carries that epoch index. -/
theorem mem_epochOps_epochOf (n epoch : Nat) :
    ∀ o ∈ epochOps n epoch, Op.epochOf o = epoch := by
  intro o ho
  simp only [epochOps, List.mem_append, List.mem_flatMap, List.mem_cons,
    List.not_mem_nil, or_false] at ho
  rcases ho with ⟨j, -, rfl | rfl⟩ | rfl <;> rfl

/-- An epoch's full call sequence never repeats a call. -/
theorem epochOps_nodup (n epoch : Nat) : (epochOps n epoch).Nodup := by
  rw [epochOps, List.nodup_append]
  refine ⟨batchOps_nodup epoch n, List.nodup_singleton _, ?_⟩
  intro o ho ho2
  rw [List.mem_singleton.mp ho2] at ho
  simp only [List.mem_flatMap, List.mem_cons, List.not_mem_nil, or_false] at ho
  obtain ⟨j, -, h | h⟩ := ho <;> exact absurd h (by simp)

/-- The full run's call sequence never repeats a call. -/
theorem runOps_nodup (E n : Nat) : (runOps E n).Nodup := by
  rw [runOps, List.nodup_flatMap]
  refine ⟨fun e _ => epochOps_nodup n e, (List.pairwise_lt_range E).imp ?_⟩
  intro a b hab
  intro o ho ho2
  have h1 := mem_epochOps_epochOf n a o ho
  have h2 := mem_epochOps_epochOf n b o ho2
  omega

/-- C5: no function of the notebook catches or recovers from any
exception, so in the fallible control-flow skeleton of `train_model`,
universally over every world of collaborator behaviours (dataloader
fetches, framework calls, filesystem saves, failing anywhere in the
run): if the run succeeds, it attempted the complete call sequence and
every attempted call succeeded (no failure was swallowed); if the run
fails, its error is exactly the error of the first failing call, that
call is the last one attempted (the run aborts, no partial-failure
handling), it was never attempted before (no retry), and every earlier
attempted call succeeded; and no collaborator call is ever attempted
twice in a run. -/
theorem claim_C5 (w : FallibleWorld ε) (E n : Nat) :
    ((trainModelE w E n).2 = Except.ok () →
      (trainModelE w E n).1 = runOps E n ∧
      ∀ o ∈ (trainModelE w E n).1, opResult w o = Except.ok ()) ∧
    (∀ ex, (trainModelE w E n).2 = Except.error ex →
      ∃ ops0 op, (trainModelE w E n).1 = ops0 ++ [op] ∧
        opResult w op = Except.error ex ∧
        op ∉ ops0 ∧
        ∀ o ∈ ops0, opResult w o = Except.ok ()) ∧
    (trainModelE w E n).1.Nodup := by
  have hspec := epochListE_spec w n (List.range E)
  have hnodup : (trainModelE w E n).1.Nodup :=
    List.Nodup.sublist hspec.2.2 (runOps_nodup E n)
  refine ⟨hspec.1, ?_, hnodup⟩
  intro ex hex
  obtain ⟨ops0, op, hdec, hop, hall⟩ := hspec.2.1 ex hex
  refine ⟨ops0, op, hdec, hop, ?_, hall⟩
  have h2 : (ops0 ++ [op]).Nodup := hdec ▸ hnodup
  rw [List.nodup_append] at h2
  exact fun hmem => h2.2.2 hmem (List.mem_singleton_self op)

/-- Witness for C5: a framework call failing mid-run (epoch 0, batch 1
of a two-epoch, three-batch run) is the run's outcome, attempted last
and only once, with every earlier call having succeeded. -/
theorem claim_C5_witness :
    ∃ ops0 op,
      (trainModelE
        ({ fetchBatch := fun _ _ => Except.ok ()
           frameworkStep := fun e i =>
             if e == 0 && i == 1 then Except.error 7 else Except.ok ()
           saveGrid := fun _ => Except.ok () } : FallibleWorld Nat) 2 3).1 =
        ops0 ++ [op] ∧
      opResult
        ({ fetchBatch := fun _ _ => Except.ok ()
           frameworkStep := fun e i =>
             if e == 0 && i == 1 then Except.error 7 else Except.ok ()
           saveGrid := fun _ => Except.ok () } : FallibleWorld Nat) op =
        Except.error 7 ∧
      op ∉ ops0 ∧
      ∀ o ∈ ops0,
        opResult
          ({ fetchBatch := fun _ _ => Except.ok ()
             frameworkStep := fun e i =>
               if e == 0 && i == 1 then Except.error 7 else Except.ok ()
             saveGrid := fun _ => Except.ok () } : FallibleWorld Nat) o =
          Except.ok () :=
  (claim_C5 _ 2 3).2.1 7 rfl

/-- The notebook environment after the last cell has run. -/
def notebookRun (cudaAvailable : Bool) : NotebookEnv :=
  notebookCells.foldl (fun env cell => cell env) (cellGlobals cudaAvailable)

/-- C6: `TRAIN_PARAMETERS` and `MODEL_HYPERPARAMETERS` are never
mutated after their initial definition: at every point of the
notebook's execution the two records equal their initial values, and
every downstream call (data loading, model construction, the two
`train_model` runs) observed exactly the initial configuration
entries. -/
theorem claim_C6 (cuda : Bool) :
    (∀ env ∈ notebookEnvs cuda,
      env.TRAIN_PARAMETERS = trainParametersInit ∧
      env.MODEL_HYPERPARAMETERS = modelHyperparametersInit) ∧
    (notebookRun cuda).TRAIN_PARAMETERS = trainParametersInit ∧
    (notebookRun cuda).MODEL_HYPERPARAMETERS = modelHyperparametersInit ∧
    (notebookRun cuda).dataloader =
      some ⟨trainParametersInit.batch_size, trainParametersInit.img_shape⟩ ∧
    (notebookRun cuda).generator =
      some ⟨trainParametersInit.num_classes, trainParametersInit.img_shape,
            modelHyperparametersInit.generator_latent_dim,
            trainParametersInit.learning_rate, if cuda then "cuda" else "cpu"⟩ ∧
    (notebookRun cuda).discriminator =
      some ⟨trainParametersInit.num_classes, trainParametersInit.img_shape,
            trainParametersInit.learning_rate, if cuda then "cuda" else "cpu"⟩ ∧
    (notebookRun cuda).trainModelCalls =
      [⟨trainParametersInit.epochs, LossKind.bceWithLogits,
        modelHyperparametersInit.generator_latent_dim,
        trainParametersInit.num_classes, if cuda then "cuda" else "cpu"⟩,
       ⟨trainParametersInit.epochs, LossKind.mse,
        modelHyperparametersInit.generator_latent_dim,
        trainParametersInit.num_classes, if cuda then "cuda" else "cpu"⟩] := by
  cases cuda <;>
    refine ⟨?_, rfl, rfl, rfl, rfl, rfl, rfl⟩ <;>
    · intro env henv
      simp only [notebookEnvs, notebookCells, List.scanl, List.mem_cons,
        List.not_mem_nil, or_false] at henv
      rcases henv with rfl | rfl | rfl | rfl | rfl | rfl <;> exact ⟨rfl, rfl⟩

/-- Witness for C6 at `cuda = false`, at the first environment. -/
theorem claim_C6_witness :
    (cellGlobals false).TRAIN_PARAMETERS = trainParametersInit ∧
    (cellGlobals false).MODEL_HYPERPARAMETERS = modelHyperparametersInit :=
  (claim_C6 false).1 (cellGlobals false)
    (by simp [notebookEnvs, notebookCells, List.scanl])

/-- The label batch of `save_reconstruction` is `n_row` copies of
`0, …, n_row-1` in a row. -/
theorem reconLabels_flatten (n : Nat) :
    reconLabels n = (List.replicate n (List.range n)).flatten := by
  rw [reconLabels, flatMap_const, List.length_range]

/-- Flattening `n` copies of `range n` lists the remainders modulo `n` of
`0, …, k*n-1`. -/
theorem flatten_replicate_range (n : Nat) :
    ∀ k, (List.replicate k (List.range n)).flatten =
      (List.range (k * n)).map (fun i => i % n) := by
  intro k
  induction k with
  | zero => simp
  | succ k ih =>
    rw [List.replicate_succ', List.flatten_append, ih, Nat.succ_mul, List.range_add,
      List.map_append]
    simp only [List.flatten_cons, List.flatten_nil, List.append_nil, List.map_map]
    congr 1
    calc List.range n = (List.range n).map id := by rw [List.map_id]
      _ = (List.range n).map ((fun i => i % n) ∘ fun x => k * n + x) := by
          apply List.map_congr_left
          intro a ha
          have halt : a < n := List.mem_range.mp ha
          simp [Function.comp, Nat.mul_comm k n, Nat.mul_add_mod, Nat.mod_eq_of_lt halt]

/-- Each label below `n_row` occurs exactly `n_row` times in the label
batch. -/
theorem reconLabels_count (n k : Nat) (hk : k < n) :
    (reconLabels n).count k = n := by
  rw [reconLabels_flatten, List.count_flatten, List.map_replicate,
    List.count_eq_one_of_mem (List.nodup_range n) (List.mem_range.mpr hk),
    List.sum_replicate, smul_eq_mul, Nat.mul_one]

/-- Row `r` of the flattened label grid is exactly `0, …, n-1`. -/
theorem flatten_replicate_slice (n : Nat) :
    ∀ m r, r < m →
      ((List.replicate m (List.range n)).flatten.drop (r * n)).take n =
        List.range n := by
  intro m
  induction m with
  | zero => intro r hr; exact absurd hr (Nat.not_lt_zero r)
  | succ m ih =>
    intro r hr
    rw [List.replicate_succ, List.flatten_cons]
    cases r with
    | zero =>
      rw [Nat.zero_mul, List.drop_zero]
      exact List.take_left' (List.length_range n)
    | succ r =>
      have hlen : (r + 1) * n = (List.range n).length + r * n := by
        rw [List.length_range, Nat.succ_mul, Nat.add_comm]
      rw [hlen, List.drop_append]
      exact ih r (Nat.lt_of_succ_lt_succ hr)

/-- C8: `save_reconstruction` invokes the generator on exactly
`n_row ** 2` noise vectors of length `generator_latent_dim`, paired with
the label sequence whose `i`-th entry is `i % n_row`; hence every label
below `n_row` occurs exactly `n_row` times, once in each row of the
grid — row `r` of the label grid is exactly `0, …, n_row-1`. -/
theorem claim_C8 (rng : Nat → Nat → ℚ) (generator_latent_dim n_row epoch_n : Nat) :
    (save_reconstruction rng generator_latent_dim n_row epoch_n).zRows.length = n_row ^ 2 ∧
    (∀ z ∈ (save_reconstruction rng generator_latent_dim n_row epoch_n).zRows,
      z.length = generator_latent_dim) ∧
    (save_reconstruction rng generator_latent_dim n_row epoch_n).labels =
      (List.range (n_row ^ 2)).map (fun i => i % n_row) ∧
    (∀ k, k < n_row →
      (save_reconstruction rng generator_latent_dim n_row epoch_n).labels.count k = n_row) ∧
    (∀ r, r < n_row →
      (((save_reconstruction rng generator_latent_dim n_row epoch_n).labels.drop
        (r * n_row)).take n_row) = List.range n_row) := by
  refine ⟨by simp [save_reconstruction], ?_, ?_, ?_, ?_⟩
  · intro z hz
    simp only [save_reconstruction, List.mem_map] at hz
    obtain ⟨i, -, rfl⟩ := hz
    simp
  · show reconLabels n_row = (List.range (n_row ^ 2)).map (fun i => i % n_row)
    rw [reconLabels_flatten, flatten_replicate_range, Nat.pow_two]
  · intro k hk
    exact reconLabels_count n_row k hk
  · intro r hr
    show ((reconLabels n_row).drop (r * n_row)).take n_row = List.range n_row
    rw [reconLabels_flatten]
    exact flatten_replicate_slice n_row n_row r hr

/-- Witness for C8 at `n_row = 3`. -/
theorem claim_C8_witness :
    (save_reconstruction (fun _ _ => 0) 4 3 0).zRows.length = 3 ^ 2 ∧
    (∀ z ∈ (save_reconstruction (fun _ _ => 0) 4 3 0).zRows, z.length = 4) ∧
    (save_reconstruction (fun _ _ => 0) 4 3 0).labels =
      (List.range (3 ^ 2)).map (fun i => i % 3) ∧
    (∀ k, k < 3 → (save_reconstruction (fun _ _ => 0) 4 3 0).labels.count k = 3) ∧
    (∀ r, r < 3 →
      (((save_reconstruction (fun _ _ => 0) 4 3 0).labels.drop (r * 3)).take 3) =
        List.range 3) :=
  claim_C8 (fun _ _ => 0) 4 3 0

/-- A linear layer yields one output per weight row/bias entry. -/
theorem linear_length (W : List (List ℚ)) (bias v : List ℚ) :
    (linear W bias v).length = min W.length bias.length := by
  simp [linear]

/-- Mapping a constant function is a replicate. -/
theorem map_const_replicate {α β : Type} (l : List α) (c : β) :
    l.map (fun _ => c) = List.replicate l.length c := by
  induction l with
  | nil => rfl
  | cons a l ih => simp [ih, List.replicate_succ]

/-- C10: on a batch of `B` noise vectors of dimension `latent_dim` and
`B` class labels below `n_classes`, `Generator.forward` returns a
tensor of shape `(B,)` followed by `img_shape`, whose flat data has
exactly `B * prod(img_shape)` entries, each of them in `[-1, 1]` — the
network ends with a `Tanh` and a reshape. -/
theorem claim_C10 (tanh : ℚ → ℚ) (p : GeneratorParams) (img_shape : List Nat)
    (n_classes latent_dim : Nat) (noise : List (List ℚ)) (labels : List Nat)
    (htanh : ∀ x, -1 ≤ tanh x ∧ tanh x ≤ 1)
    (hwf : GeneratorWf p n_classes img_shape latent_dim)
    (hlen : labels.length = noise.length)
    (_hlab : ∀ l ∈ labels, l < n_classes)
    (_hnoise : ∀ z ∈ noise, z.length = latent_dim) :
    (Generator.forward tanh p img_shape noise labels).shape =
      noise.length :: img_shape ∧
    (Generator.forward tanh p img_shape noise labels).data.length =
      noise.length * img_shape.prod ∧
    ∀ x ∈ (Generator.forward tanh p img_shape noise labels).data,
      -1 ≤ x ∧ x ≤ 1 := by
  obtain ⟨-, -, -, -, -, -, -, ⟨hW4, -⟩, hb4⟩ := hwf
  have hrowlen : ∀ v : List ℚ,
      ((linear p.W4 p.b4 v).map tanh).length = img_shape.prod := by
    intro v
    rw [List.length_map, linear_length, hW4, hb4, Nat.min_self]
  refine ⟨?_, ?_, ?_⟩
  · simp [Generator.forward, List.length_zipWith, hlen]
  · simp only [Generator.forward, List.length_flatten, List.map_map, Function.comp_def]
    rw [List.map_congr_left (fun v _ => hrowlen _), map_const_replicate]
    rw [List.sum_replicate, smul_eq_mul, List.length_zipWith, hlen, Nat.min_self]
  · intro x hx
    simp only [Generator.forward, List.mem_flatten, List.mem_map] at hx
    obtain ⟨row, ⟨v, -, rfl⟩, hxrow⟩ := hx
    obtain ⟨y, -, rfl⟩ := List.mem_map.mp hxrow
    exact htanh y

/-- Concrete generator parameters of the `__init__` shapes for
`n_classes = 1`, `img_shape = [1, 1, 1]`, `latent_dim = 1`. -/
def genParamsW : GeneratorParams :=
  { label_emb := List.replicate 1 (List.replicate 1 1)
    W1 := List.replicate 256 (List.replicate 2 1)
    b1 := List.replicate 256 1
    W2 := List.replicate 512 (List.replicate 256 1)
    b2 := List.replicate 512 1
    W3 := List.replicate 1024 (List.replicate 512 1)
    b3 := List.replicate 1024 1
    W4 := List.replicate 1 (List.replicate 1024 1)
    b4 := List.replicate 1 1 }

/-- Witness for C10 at a singleton batch with a clamped activation. -/
theorem claim_C10_witness :
    (Generator.forward (fun x => max (-1) (min 1 x)) genParamsW [1, 1, 1]
      [[(0 : ℚ)]] [0]).shape = [1, 1, 1, 1] ∧
    (Generator.forward (fun x => max (-1) (min 1 x)) genParamsW [1, 1, 1]
      [[(0 : ℚ)]] [0]).data.length = 1 ∧
    ∀ x ∈ (Generator.forward (fun x => max (-1) (min 1 x)) genParamsW [1, 1, 1]
      [[(0 : ℚ)]] [0]).data, -1 ≤ x ∧ x ≤ 1 :=
  claim_C10 (fun x => max (-1) (min 1 x)) genParamsW [1, 1, 1] 1 1 [[0]] [0]
    (fun x => ⟨le_max_left _ _, max_le (by norm_num) (min_le_left _ _)⟩)
    (by
      refine ⟨⟨List.length_replicate _ _, ?_⟩, ⟨List.length_replicate _ _, ?_⟩,
        List.length_replicate _ _, ⟨List.length_replicate _ _, ?_⟩,
        List.length_replicate _ _, ⟨List.length_replicate _ _, ?_⟩,
        List.length_replicate _ _,
        ⟨(List.length_replicate _ _).trans (by decide), ?_⟩,
        (List.length_replicate _ _).trans (by decide)⟩ <;>
        · intro r hr
          rw [List.eq_of_mem_replicate hr]
          exact List.length_replicate _ _)
    rfl
    (by simp)
    (by simp)

end CGan
